import Mathlib

/-!
Verification development for the Journal-AI repository (browser journaling
client with a real-time voice-assistant session pipeline).

The definitions below are a shallow embedding of the TypeScript source:

* `src/services/googleSheetsService.ts` — `COLUMN_MAP`,
  `formatPriorityForSheet`, `updateJournalEntry` (the network `fetch` is
  modelled by returning the write request that would be issued; a thrown
  exception is modelled as `Except.error` carrying the thrown message).
* `src/unnamed/part_000` (the service revision whose `findEntries` takes the
  `startDate`/`endDate` parameters) — `findEntries`.  The
  `getJournalEntries` network fetch is abstracted: `findEntries` takes the
  already-fetched entry list as an argument.
* `src/types.ts`, lines 293-658 (the mobile-hardened revision of
  `useGeminiLive` that `LiveChatView` consumes: it is the only revision
  returning `micVolume` and `errorMessage`) — the session lifecycle machine
  (`startSession` / `stopSession` / transport callbacks), the tool-call
  dispatcher, the audio playback scheduler, and `downsampleTo16k`.

JavaScript strings are modelled as Lean `String`s; JS relational operators
on strings (UTF-16 code-unit lexicographic order) are modelled by an
explicit lexicographic Boolean comparison on the character lists, which
agrees with JS on the ASCII data (dates, field names, priorities) these
functions handle.  JS number arithmetic in the audio code is modelled with
exact rationals (`ℚ`) and exact naturals; the source uses IEEE doubles,
which agree on the cited sample-rate ratios (48000/16000 = 3 exactly).
-/

namespace JournalAI

/-- Lexicographic strict order on character lists: the model of the
JavaScript `<` operator on strings. -/
def charsLt : List Char → List Char → Bool
  | _, [] => false
  | [], _ :: _ => true
  | a :: as, b :: bs => a < b || (a == b && charsLt as bs)

/-- Model of the JavaScript `a < b` string comparison. -/
def jsLt (a b : String) : Bool :=
  charsLt a.data b.data

/-- Model of the JavaScript `a <= b` string comparison: in JS, string
comparison is a total order, so `a <= b` is exactly `!(b < a)`. -/
def jsLe (a b : String) : Bool :=
  !(jsLt b a)

/-- Does `needle` occur as a contiguous run inside the list? -/
def charsIncludes (needle : List Char) : List Char → Bool
  | [] => needle.isEmpty
  | c :: rest => needle.isPrefixOf (c :: rest) || charsIncludes needle rest

/-- Model of the JavaScript `hay.includes(needle)` substring test. -/
def strIncludes (hay needle : String) : Bool :=
  charsIncludes needle.data hay.data

/-- Model of JS `toLowerCase` (character-wise; agrees with JS on ASCII). -/
def strToLower (s : String) : String :=
  ⟨s.data.map Char.toLower⟩

/-- Model of JS `toUpperCase` (character-wise; agrees with JS on ASCII). -/
def strToUpper (s : String) : String :=
  ⟨s.data.map Char.toUpper⟩

/-- Structure `JournalEntry` from `src/types.ts`.  The TS string-union types
(`type`, `taskStatus`, `priority`) are modelled as plain strings, which is
what the spreadsheet rows actually carry. -/
structure JournalEntry where
  row : Nat
  id : String
  timestamp : String
  entry : String
  tags : List String
  type : String
  taskStatus : String
  dueDate : Option String
  priority : String
  aiSummary : Option String
  aiInsight : Option String
deriving DecidableEq, Repr

/-- Mapping `COLUMN_MAP` from `src/services/googleSheetsService.ts` lines 278-289
(identical in `src/unnamed/part_000` lines 10-21): the object literal is
modelled as an association list in the source's key order. -/
def COLUMN_MAP : List (String × String) :=
  [("id", "A"), ("timestamp", "B"), ("entry", "C"), ("tags", "D"),
   ("type", "E"), ("taskStatus", "F"), ("dueDate", "G"), ("priority", "H"),
   ("aiSummary", "I"), ("aiInsight", "J")]

/-- Function `formatPriorityForSheet` from `googleSheetsService.ts` lines 301-305.
`!p` in JS is true for `null`/`undefined`/`""`; `charAt(0).toUpperCase() +
slice(1).toLowerCase()` capitalizes the first character.  Lean's
`String.toUpper`/`String.toLower` agree with JS on the ASCII priority
vocabulary. -/
def formatPriorityForSheet (p : Option String) : String :=
  match p with
  | none => ""
  | some s =>
    if s = "" then ""
    else if strToLower s = "none" then ""
    else strToUpper (s.take 1) ++ strToLower (s.drop 1)

/-- The cell write that `updateJournalEntry` issues over the network:
`PUT` of `value` to `range`.  `value` is `Option String` because the TS
signature admits `null` (serialized as an empty cell). -/
structure SheetWrite where
  range : String
  value : Option String
deriving DecidableEq, Repr

/-- Property names that a JavaScript object literal such as `COLUMN_MAP`
inherits from `Object.prototype`: bracket lookup of any of these returns
the inherited (truthy) function — or, for `__proto__`, the prototype
object itself — not `undefined`. -/
def OBJECT_PROTOTYPE_KEYS : List String :=
  ["constructor", "hasOwnProperty", "isPrototypeOf", "propertyIsEnumerable",
   "toLocaleString", "toString", "valueOf", "__defineGetter__",
   "__defineSetter__", "__lookupGetter__", "__lookupSetter__", "__proto__"]

/-- A JavaScript value that `COLUMN_MAP[field]` can evaluate to: an own
string property (a column letter), a member inherited from
`Object.prototype`, or `undefined`. -/
inductive JsProp
  | str (s : String)
  | protoRef (name : String)
  | undefinedProp
deriving DecidableEq, Repr

/-- Model of the JS bracket lookup `COLUMN_MAP[field]`: own keys first,
then the `Object.prototype` chain, then `undefined`. -/
def columnMapGet (field : String) : JsProp :=
  match COLUMN_MAP.lookup field with
  | some column => .str column
  | none =>
    if field ∈ OBJECT_PROTOTYPE_KEYS then .protoRef field else .undefinedProp

/-- JS truthiness of a looked-up property (`if (!column) ...`): a string
is falsy exactly when empty; inherited functions and objects are truthy;
`undefined` is falsy. -/
def jsTruthy : JsProp → Bool
  | .str s => !(s == "")
  | .protoRef _ => true
  | .undefinedProp => false

/-- Template-literal interpolation of the looked-up property, as used in
the range string: a column letter verbatim; an inherited function
stringifies (in V8 and SpiderMonkey) as `function name() \x7b [native
code] \x7d`; `__proto__` yields `[object Object]`. -/
def jsDisplay : JsProp → String
  | .str s => s
  | .protoRef name =>
    if name = "__proto__" then "[object Object]"
    else "function " ++ name ++ "() \x7b [native code] \x7d"
  | .undefinedProp => "undefined"

/-- Function `updateJournalEntry` from `googleSheetsService.ts` lines 413-446, up to
the point where the network request is issued: the returned `SheetWrite` is
the request body/target; `Except.error` models the exceptions thrown
*before* any network call (`Not authenticated`, falsy column lookup).
The lookup `COLUMN_MAP[field]` is the full JS bracket lookup, including
the `Object.prototype` chain: for a field such as `toString` the check
`if (!column) throw ...` does not fire, and the write is issued with the
stringified inherited member in the range. -/
def updateJournalEntry (accessToken : Option String) (row : Nat)
    (field : String) (value : Option String) : Except String SheetWrite :=
  match accessToken with
  | none => .error "Not authenticated"
  | some _ =>
    let column := columnMapGet field
    if jsTruthy column then
      let valueToSend : Option String :=
        if field = "priority" then some (formatPriorityForSheet value) else value
      .ok { range := "Journal!" ++ jsDisplay column ++ toString row,
            value := valueToSend }
    else
      .error ("Invalid field provided for update: " ++ field)

/-- The predicate of the date-range filter inside `findEntries`
(`src/unnamed/part_000` lines 181-196): an entry without a due date is
rejected; otherwise the due date must be `>= startDate` (if given) and
`<= endDate` (if given), compared as JS strings. -/
def dueDateInRange (startDate endDate : Option String) (e : JournalEntry) : Bool :=
  match e.dueDate with
  | none => false
  | some d =>
    (match startDate with | some s => jsLe s d | none => true) &&
    (match endDate with | some t => jsLe d t | none => true)

/-- Function `findEntries` from `src/unnamed/part_000` lines 165-205 (the service
revision with date-range support).  The `getJournalEntries` fetch is
abstracted: `entries` is the fetched, timestamp-sorted list.  `if (query)`
in JS tests string non-emptiness, and `if (startDate || endDate)` tests
presence of either bound. -/
def findEntries (entries : List JournalEntry) (query : String)
    (startDate endDate : Option String) : List JournalEntry :=
  let filtered1 :=
    if query = "" then entries
    else entries.filter (fun e => strIncludes (strToLower e.entry) (strToLower query))
  let filtered2 :=
    if startDate ≠ none ∨ endDate ≠ none then
      filtered1.filter (dueDateInRange startDate endDate)
    else filtered1
  if query = "" ∧ startDate = none ∧ endDate = none then filtered2.take 5
  else filtered2

/-- Function `downsampleTo16k` from `src/types.ts` lines 346-360.  Samples are
modelled as integers (the Float32 sample values are opaque to the
algorithm); `ratio = sampleRate/16000`, `Math.ceil(len/ratio)` and
`Math.floor(i*ratio)` are computed exactly:
`ceil(len/ratio) = (16000*len + rate - 1)/rate` and
`floor(i*ratio) = i*rate/16000` in natural-number division.  A result slot
whose source offset falls outside the input keeps the `Float32Array` zero
initialisation, as in the source's `if (offset < inputData.length)` guard. -/
def downsampleTo16k (inputData : List Int) (sampleRate : Nat) : List Int :=
  if sampleRate = 16000 then inputData
  else
    let newLength := (16000 * inputData.length + sampleRate - 1) / sampleRate
    (List.range newLength).map (fun i =>
      let offset := i * sampleRate / 16000
      if h : offset < inputData.length then inputData.get ⟨offset, h⟩ else 0)

/-- One audio-chunk enqueue step, `src/types.ts` lines 609-616:
`startAt = max(nextPlaybackTime, ctx.currentTime)`, the buffer is started at
`startAt`, and the cursor advances to `startAt + buffer.duration`.  Returns
`(startAt, new cursor)`. -/
def scheduleStep (nextTime clock dur : ℚ) : ℚ × ℚ :=
  let startAt := max nextTime clock
  (startAt, startAt + dur)

/-- Start times produced by enqueuing a sequence of chunks; each chunk is a
pair `(clock, dur)`: the device clock time observed at its enqueue and its
buffer duration. -/
def scheduleStarts (nextTime : ℚ) : List (ℚ × ℚ) → List ℚ
  | [] => []
  | c :: rest =>
    let s := scheduleStep nextTime c.1 c.2
    s.1 :: scheduleStarts s.2 rest

/-- Source tag of a `TranscriptEntry`, from `src/types.ts`. -/
inductive TSource
  | user
  | ai
  | system
deriving DecidableEq, Repr

/-- Structure `TranscriptEntry` from `src/types.ts`. -/
structure TranscriptEntry where
  source : TSource
  text : String
deriving DecidableEq, Repr

/-- Response payload handed to `session.sendToolResponse`:  the dispatcher
builds `{ result: ... }` on success, `{ error: { message: ... } }` on a
caught exception, and leaves `result` `undefined` when the function name
matches neither tool (the response is still sent). -/
inductive ToolPayload
  | ok (result : String)
  | err (message : String)
  | undefinedProp
deriving DecidableEq, Repr

/-- Record `functionResponses` sent back over the transport, carrying the
id, the name and the response payload. -/
structure ToolResponse where
  id : String
  name : String
  payload : ToolPayload
deriving DecidableEq, Repr

/-- One server-issued function call `fc` together with the outcome its
backing `googleSheetsService` call would have (`Except.error m` models the
service throwing an exception whose message is `m`; `Except.ok s` models a
successful call whose serialized result is `s`). -/
structure ToolCallReq where
  id : String
  name : String
  argsQuery : String
  argsField : String
  argsValue : String
  argsRow : Nat
  sheets : Except String String
deriving Repr

/-- Tool-call dispatch from the `onmessage` loop, `src/types.ts` lines
574-597: `findEntries` wraps the service result, `updateJournalEntry`
reports `"Update successful."`, a caught exception becomes an error
payload, and any other name leaves `result` undefined; in every case one
response carrying the request's `id` and `name` is sent. -/
def dispatchResponse (fc : ToolCallReq) : ToolResponse :=
  if fc.name = "findEntries" then
    match fc.sheets with
    | .ok s => { id := fc.id, name := fc.name, payload := .ok s }
    | .error m => { id := fc.id, name := fc.name, payload := .err m }
  else if fc.name = "updateJournalEntry" then
    match fc.sheets with
    | .ok _ => { id := fc.id, name := fc.name, payload := .ok "Update successful." }
    | .error m => { id := fc.id, name := fc.name, payload := .err m }
  else { id := fc.id, name := fc.name, payload := .undefinedProp }

/-- System transcript lines the dispatcher appends before awaiting the
service (`src/types.ts` lines 579, 583). -/
def dispatchTranscript (fc : ToolCallReq) : List TranscriptEntry :=
  if fc.name = "findEntries" then
    [{ source := .system,
       text := "Searching journal for \"" ++ fc.argsQuery ++ "\"..." }]
  else if fc.name = "updateJournalEntry" then
    [{ source := .system,
       text := "Updating " ++ fc.argsField ++ " to \"" ++ fc.argsValue ++
               "\" on row " ++ toString fc.argsRow ++ "..." }]
  else []

/-- Enumeration `SessionState` from `src/types.ts` line 299. -/
inductive SessionState
  | IDLE
  | CONNECTING
  | LISTENING
  | PROCESSING
  | ERROR
deriving DecidableEq, Repr

/-- Progress of the most recent `startSession()` coroutine across its
`await` suspension points (`await ctx.resume()` is merged into the
microphone await; nothing observable happens between them):
`awaitingMic` = suspended inside `getUserMedia`, `awaitingConnect` =
microphone granted, `ai.live.connect` issued, awaiting the open
acknowledgment, `running` = `onopen` fired.  The source has no such
variable; it is the program counter of the `async` function. -/
inductive StartPhase
  | noStart
  | awaitingMic
  | awaitingConnect
  | running
deriving DecidableEq, Repr

/-- Observable state of the `useGeminiLive` hook (`src/types.ts` lines
363-658) between event-loop turns.  Each `Bool` field models the nullness
of the corresponding mutable ref; `micAcquisitions`, `transportsOpened`,
`stoppedSources`, `scheduledStarts` and `responsesSent` are history
variables counting/logging the effectful calls (`getUserMedia` successes,
`ai.live.connect` invocations, `source.stop()`, `source.start(t)`,
`session.sendToolResponse`). -/
structure LiveState where
  sessionState : SessionState
  errorMessage : Option String
  transcript : List TranscriptEntry
  micVolume : ℚ
  sessionOpen : Bool
  micOn : Bool
  procOn : Bool
  ctxOpen : Bool
  pending : List Nat
  stoppedSources : List Nat
  nextStartTime : ℚ
  isBusy : Bool
  phase : StartPhase
  nextSourceId : Nat
  micAcquisitions : Nat
  transportsOpened : Nat
  scheduledStarts : List ℚ
  responsesSent : List ToolResponse

/-- Hook state right after mount: every ref null, `sessionState` `IDLE`,
`nextAudioStartTimeRef` 0, empty transcript. -/
def initState : LiveState where
  sessionState := .IDLE
  errorMessage := none
  transcript := []
  micVolume := 0
  sessionOpen := false
  micOn := false
  procOn := false
  ctxOpen := false
  pending := []
  stoppedSources := []
  nextStartTime := 0
  isBusy := false
  phase := .noStart
  nextSourceId := 0
  micAcquisitions := 0
  transportsOpened := 0
  scheduledStarts := []
  responsesSent := []

/-- Outcome of the `getUserMedia` await: granted, or rejected with a
`DOMException` whose `name`/`message` the catch block inspects. -/
inductive MicOutcome
  | granted
  | denied (name : String) (message : String)
deriving Repr

/-- Outcome of the `ai.live.connect` future. -/
inductive ConnectOutcome
  | opened
  | failed (message : String)
deriving Repr

/-- External events driving the hook: the two UI commands, resolution of
the two awaits inside `startSession`, and the transport callbacks.  Each
event is one event-loop turn (plus its microtasks). -/
inductive Event
  | startRequest (apiKeyPresent : Bool)
  | micResult (r : MicOutcome)
  | connectResult (r : ConnectOutcome)
  | stopCall
  | serverError
  | serverClose
  | toolCallMsg (calls : List ToolCallReq)
  | audioChunk (clock dur : ℚ)
  | interruptSignal
  | sourceEnded (id : Nat)

/-- Error message for a denied microphone, `src/types.ts` line 645. -/
def micDeniedMsg : String :=
  "Microphone access denied. Please close any screen overlays (like chat heads) and try again."

/-- Generic fallback message of the `startSession` catch block,
`src/types.ts` line 643. -/
def genericErrorMsg : String :=
  "An unexpected error occurred."

/-- Message installed by the transport `onerror` callback,
`src/types.ts` line 632. -/
def connectFailedMsg : String :=
  "Connection to AI assistant failed."

/-- Teardown `stopSession` from `src/types.ts` lines 395-434: close the session
handle, stop the microphone tracks, disconnect the script processor, stop
and clear all pending playback sources, close the audio context, then set
`IDLE`, reset the volume and clear the busy flag.  It does not (and cannot)
cancel a suspended `startSession` coroutine, so `phase` is untouched. -/
def stopSession (s : LiveState) : LiveState :=
  { s with
    sessionOpen := false
    micOn := false
    procOn := false
    stoppedSources := s.stoppedSources ++ s.pending
    pending := []
    ctxOpen := false
    sessionState := .IDLE
    micVolume := 0
    isBusy := false }

/-- The `startSession` catch block (`src/types.ts` lines 640-654)
composed with the `stopSession()` call it ends with: install the message,
set `ERROR`, then tear down (which overwrites the state with `IDLE`). -/
def startCatch (msg : String) (s : LiveState) : LiveState :=
  stopSession { s with errorMessage := some msg, sessionState := .ERROR, phase := .noStart }

/-- Synchronous head of `startSession` up to the first await
(`src/types.ts` lines 436-459): the re-entrancy guard
`if (isBusyRef.current || sessionRef.current) return;`, the busy flag,
clearing the error/transcript/volume, the `API_KEY` precondition (whose
failure throws into the catch block), and creation of the single
`AudioContext`.  On success the coroutine suspends awaiting
`getUserMedia`. -/
def stepStart (apiKeyPresent : Bool) (s : LiveState) : LiveState :=
  if s.isBusy || s.sessionOpen then s
  else
    let s1 := { s with isBusy := true, errorMessage := none,
                       transcript := [], micVolume := 0 }
    if apiKeyPresent then
      { s1 with ctxOpen := true, phase := .awaitingMic }
    else
      startCatch "API_KEY is not set." s1

/-- Resumption of `startSession` when the `getUserMedia` await settles
(`src/types.ts` lines 464-511 and the catch block): on grant the stream is
stored, `CONNECTING` is set and `ai.live.connect` is invoked; on rejection
the catch block picks the permission-specific message for
`NotAllowedError`/`PermissionDeniedError` and the exception's own message
otherwise. -/
def stepMic (r : MicOutcome) (s : LiveState) : LiveState :=
  if s.phase = .awaitingMic then
    match r with
    | .granted =>
      { s with micOn := true
               micAcquisitions := s.micAcquisitions + 1
               sessionState := .CONNECTING
               transportsOpened := s.transportsOpened + 1
               phase := .awaitingConnect }
    | .denied name message =>
      let msg := if name = "NotAllowedError" || name = "PermissionDeniedError"
                 then micDeniedMsg else message
      startCatch msg s
  else s

/-- Resolution of the connect future (`src/types.ts` lines 513-550, 638):
on success the SDK resolves `sessionPromise` (storing the session handle)
and fires `onopen`, which wires the capture pipeline and sets `LISTENING`
only if the stream and context refs are still present, then clears the
busy flag; these happen before any further user turn and are modelled as
one transition.  On failure the `await sessionPromise` throws into the
catch block. -/
def stepConnect (r : ConnectOutcome) (s : LiveState) : LiveState :=
  if s.phase = .awaitingConnect then
    match r with
    | .opened =>
      let s1 := { s with sessionOpen := true, phase := .running }
      if s1.micOn && s1.ctxOpen then
        { s1 with procOn := true, sessionState := .LISTENING, isBusy := false }
      else s1
    | .failed message => startCatch message s
  else s

/-- Transport `onerror` (`src/types.ts` lines 629-634): set `ERROR`,
install the connectivity message, then call `stopSession()` — whose final
`setSessionState('IDLE')` overwrites the `ERROR` just set. -/
def stepServerError (s : LiveState) : LiveState :=
  if s.phase = .awaitingConnect || s.phase = .running then
    stopSession { s with sessionState := .ERROR, errorMessage := some connectFailedMsg }
  else s

/-- Transport `onclose` (`src/types.ts` lines 625-628): plain teardown. -/
def stepServerClose (s : LiveState) : LiveState :=
  if s.phase = .awaitingConnect || s.phase = .running then stopSession s else s

/-- The tool-call branch of `onmessage` (`src/types.ts` lines 574-598):
for each function call, append the system transcript line, dispatch to the
sheets service, and send exactly one response; the handler never touches
the session state or the refs. -/
def stepToolCalls (calls : List ToolCallReq) (s : LiveState) : LiveState :=
  { s with
    transcript := s.transcript ++ calls.flatMap dispatchTranscript
    responsesSent := s.responsesSent ++ calls.map dispatchResponse }

/-- The audio-playback branch of `onmessage` (`src/types.ts` lines
600-618), guarded by `audioData && audioContextRef.current`: advance the
cursor with `scheduleStep`, start a fresh buffer source at the computed
time and track it in `pendingAudioSources`. -/
def stepAudioChunk (clock dur : ℚ) (s : LiveState) : LiveState :=
  if s.ctxOpen then
    let sched := scheduleStep s.nextStartTime clock dur
    { s with nextStartTime := sched.2
             scheduledStarts := s.scheduledStarts ++ [sched.1]
             pending := s.pending ++ [s.nextSourceId]
             nextSourceId := s.nextSourceId + 1 }
  else s

/-- The interruption branch of `onmessage` (`src/types.ts` lines 619-623):
stop every pending source, clear the set, reset the cursor to 0. -/
def stepInterrupt (s : LiveState) : LiveState :=
  { s with
    stoppedSources := s.stoppedSources ++ s.pending
    pending := []
    nextStartTime := 0 }

/-- The `ended` listener of a playback source (`src/types.ts` line 614):
remove it from `pendingAudioSources`. -/
def stepSourceEnded (id : Nat) (s : LiveState) : LiveState :=
  { s with pending := s.pending.erase id }

/-- One event-loop turn of the hook. -/
def step (s : LiveState) : Event → LiveState
  | .startRequest k => stepStart k s
  | .micResult r => stepMic r s
  | .connectResult r => stepConnect r s
  | .stopCall => stopSession s
  | .serverError => stepServerError s
  | .serverClose => stepServerClose s
  | .toolCallMsg calls => stepToolCalls calls s
  | .audioChunk clock dur => stepAudioChunk clock dur s
  | .interruptSignal => stepInterrupt s
  | .sourceEnded id => stepSourceEnded id s

/-- Run a sequence of events from a state. -/
def run (s : LiveState) (es : List Event) : LiveState :=
  es.foldl step s

/-- States reachable from the mounted hook by traces in which `stop()` is
never invoked while a pending `start()` is suspended inside its
`getUserMedia` await (the interleaving the UI cannot produce: during that
await `sessionState` is still `IDLE`, so the mic button triggers
`startSession`, not `stopSession`). -/
inductive SafeReach : LiveState → Prop
  | init : SafeReach initState
  | next (s : LiveState) (e : Event) (hs : SafeReach s)
      (hsafe : e = .stopCall → s.phase ≠ .awaitingMic) : SafeReach (step s e)

/-! ## Theorems -/

/-- Unfolding of the date-range predicate into its specification shape. -/
lemma dueDateInRange_iff (startDate endDate : Option String) (e : JournalEntry) :
    dueDateInRange startDate endDate e = true ↔
      ∃ d, e.dueDate = some d ∧
        (∀ s, startDate = some s → jsLe s d = true) ∧
        (∀ t, endDate = some t → jsLe d t = true) := by
  cases h : e.dueDate with
  | none => simp [dueDateInRange, h]
  | some d => cases startDate <;> cases endDate <;> simp [dueDateInRange, h]

/-- C2: whenever `findEntries` is called with a `startDate` and/or an
`endDate`, the result consists exactly of the stored entries that pass the
text-query filter (vacuous when the query is empty) and have a present due
date lying in the inclusive range; entries without a due date never appear
in a date-filtered result. -/
theorem c2_findEntries_dateRange (entries : List JournalEntry) (query : String)
    (startDate endDate : Option String)
    (hdate : startDate ≠ none ∨ endDate ≠ none) (e : JournalEntry) :
    e ∈ findEntries entries query startDate endDate ↔
      e ∈ entries ∧
      (query ≠ "" → strIncludes (strToLower e.entry) (strToLower query) = true) ∧
      ∃ d, e.dueDate = some d ∧
        (∀ s, startDate = some s → jsLe s d = true) ∧
        (∀ t, endDate = some t → jsLe d t = true) := by
  have hno : ¬(query = "" ∧ startDate = none ∧ endDate = none) := by
    rintro ⟨-, h1, h2⟩
    rcases hdate with h | h
    · exact h h1
    · exact h h2
  unfold findEntries
  simp only [if_pos hdate, if_neg hno]
  by_cases hq : query = ""
  · simp [hq, List.mem_filter, dueDateInRange_iff]
  · simp only [if_neg hq, List.mem_filter, dueDateInRange_iff]
    constructor
    · rintro ⟨⟨he, hinc⟩, hd⟩
      exact ⟨he, fun _ => hinc, hd⟩
    · rintro ⟨he, hinc, hd⟩
      exact ⟨⟨he, hinc hq⟩, hd⟩

/-- Entry due 2024-01-05 (the spec's date-filter example). -/
def entryJan5 : JournalEntry :=
  { row := 2, id := "a1", timestamp := "2024-01-04T09:00:00Z",
    entry := "Finish the quarterly report", tags := ["work"], type := "task",
    taskStatus := "todo", dueDate := some "2024-01-05", priority := "high",
    aiSummary := none, aiInsight := none }

/-- Entry due 2024-01-15. -/
def entryJan15 : JournalEntry :=
  { row := 3, id := "a2", timestamp := "2024-01-10T09:00:00Z",
    entry := "Plan the offsite", tags := [], type := "task",
    taskStatus := "todo", dueDate := some "2024-01-15", priority := "medium",
    aiSummary := none, aiInsight := none }

/-- Entry due 2024-02-01. -/
def entryFeb1 : JournalEntry :=
  { row := 4, id := "a3", timestamp := "2024-01-20T09:00:00Z",
    entry := "Renew the licence", tags := [], type := "task",
    taskStatus := "todo", dueDate := some "2024-02-01", priority := "low",
    aiSummary := none, aiInsight := none }

/-- Entry with no due date. -/
def entryNoDue : JournalEntry :=
  { row := 5, id := "a4", timestamp := "2024-01-21T09:00:00Z",
    entry := "Random musing", tags := [], type := "note",
    taskStatus := "none", dueDate := none, priority := "none",
    aiSummary := none, aiInsight := none }

/-- The spec's example journal for the date-range filter. -/
def sampleEntries : List JournalEntry :=
  [entryJan5, entryJan15, entryFeb1, entryNoDue]

/-- Witness for C2 at the spec's example: the January range returns the
entry due 2024-01-05 and excludes the entry with no due date. -/
theorem c2_findEntries_dateRange_witness :
    entryJan5 ∈ findEntries sampleEntries "" (some "2024-01-01") (some "2024-01-31") ∧
    entryNoDue ∉ findEntries sampleEntries "" (some "2024-01-01") (some "2024-01-31") := by
  constructor
  · refine (c2_findEntries_dateRange sampleEntries "" (some "2024-01-01")
      (some "2024-01-31") (Or.inl (by simp)) entryJan5).mpr
      ⟨by simp [sampleEntries], fun h => absurd rfl h, "2024-01-05", rfl, ?_, ?_⟩
    · intro s hs
      injection hs with hs
      subst hs
      decide
    · intro t ht
      injection ht with ht
      subst ht
      decide
  · intro hmem
    obtain ⟨-, -, d, hd, -⟩ := (c2_findEntries_dateRange sampleEntries ""
      (some "2024-01-01") (some "2024-01-31") (Or.inl (by simp)) entryNoDue).mp hmem
    simp [entryNoDue] at hd

/-- C5 counterexample: the field `aiSummary` is outside the claimed
six-element set, yet `updateJournalEntry` accepts it (because `COLUMN_MAP`
also maps `id`, `timestamp`, `aiSummary`, `aiInsight`) and proceeds to
issue the write. -/
theorem c5_counterexample :
    (updateJournalEntry (some "token") 5 "aiSummary" (some "x")).toOption.isSome = true ∧
    "aiSummary" ∉ (["entry", "tags", "type", "taskStatus", "dueDate",
                    "priority"] : List String) := by
  constructor
  · rfl
  · decide

/-- C5 amended: with an access token present, `updateJournalEntry` accepts
`field` exactly when the JS lookup `COLUMN_MAP[field]` is truthy, i.e.
when `field` is one of the ten own keys of `COLUMN_MAP` (the claimed six
plus `id`, `timestamp`, `aiSummary`, `aiInsight`) or one of the property
names inherited from `Object.prototype` (`toString`, `constructor`,
`hasOwnProperty`, ...).  For inherited names the validation wrongly
passes and a network write to a garbage range is issued; only a field in
neither set throws the local validation error before any network
request. -/
theorem c5_field_validation (tok : String) (row : Nat) (field : String)
    (value : Option String) :
    ((updateJournalEntry (some tok) row field value).toOption.isSome = true ↔
      (field ∈ ["id", "timestamp", "entry", "tags", "type", "taskStatus",
                "dueDate", "priority", "aiSummary", "aiInsight"] ∨
       field ∈ OBJECT_PROTOTYPE_KEYS)) ∧
    (field ∉ ["id", "timestamp", "entry", "tags", "type", "taskStatus",
              "dueDate", "priority", "aiSummary", "aiInsight"] →
      field ∉ OBJECT_PROTOTYPE_KEYS →
      updateJournalEntry (some tok) row field value
        = .error ("Invalid field provided for update: " ++ field)) ∧
    (field ∈ OBJECT_PROTOTYPE_KEYS →
      ∃ w, updateJournalEntry (some tok) row field value = .ok w ∧
        w.range = "Journal!" ++ jsDisplay (.protoRef field) ++ toString row) := by
  by_cases h : field ∈ ["id", "timestamp", "entry", "tags", "type",
      "taskStatus", "dueDate", "priority", "aiSummary", "aiInsight"]
  · have hok : ∃ w, updateJournalEntry (some tok) row field value = .ok w := by
      fin_cases h <;> exact ⟨_, rfl⟩
    obtain ⟨w, hw⟩ := hok
    have hproto : field ∉ OBJECT_PROTOTYPE_KEYS := by
      fin_cases h <;> decide
    exact ⟨⟨fun _ => Or.inl h, fun _ => by rw [hw]; rfl⟩,
      fun hn _ => absurd h hn, fun hp => absurd hp hproto⟩
  · by_cases hproto : field ∈ OBJECT_PROTOTYPE_KEYS
    · have hok : ∃ w, updateJournalEntry (some tok) row field value = .ok w ∧
          w.range = "Journal!" ++ jsDisplay (.protoRef field) ++ toString row := by
        fin_cases hproto <;> exact ⟨_, rfl, rfl⟩
      obtain ⟨w, hw, hr⟩ := hok
      exact ⟨⟨fun _ => Or.inr hproto, fun _ => by rw [hw]; rfl⟩,
        fun _ hn => absurd hproto hn, fun _ => ⟨w, hw, hr⟩⟩
    · have n1 : (field == "id") = false := by
        exact beq_false_of_ne fun e => h (by subst e; decide)
      have n2 : (field == "timestamp") = false := by
        exact beq_false_of_ne fun e => h (by subst e; decide)
      have n3 : (field == "entry") = false := by
        exact beq_false_of_ne fun e => h (by subst e; decide)
      have n4 : (field == "tags") = false := by
        exact beq_false_of_ne fun e => h (by subst e; decide)
      have n5 : (field == "type") = false := by
        exact beq_false_of_ne fun e => h (by subst e; decide)
      have n6 : (field == "taskStatus") = false := by
        exact beq_false_of_ne fun e => h (by subst e; decide)
      have n7 : (field == "dueDate") = false := by
        exact beq_false_of_ne fun e => h (by subst e; decide)
      have n8 : (field == "priority") = false := by
        exact beq_false_of_ne fun e => h (by subst e; decide)
      have n9 : (field == "aiSummary") = false := by
        exact beq_false_of_ne fun e => h (by subst e; decide)
      have n10 : (field == "aiInsight") = false := by
        exact beq_false_of_ne fun e => h (by subst e; decide)
      have hlook : COLUMN_MAP.lookup field = none := by
        simp [COLUMN_MAP, List.lookup, n1, n2, n3, n4, n5, n6, n7, n8, n9, n10]
      have hcol : columnMapGet field = .undefinedProp := by
        simp [columnMapGet, hlook, hproto]
      have herr : updateJournalEntry (some tok) row field value
          = .error ("Invalid field provided for update: " ++ field) := by
        simp [updateJournalEntry, hcol, jsTruthy]
      refine ⟨⟨fun hs => ?_, fun hor => ?_⟩, fun _ _ => herr,
        fun hp => absurd hp hproto⟩
      · rw [herr] at hs
        simp [Except.toOption] at hs
      · rcases hor with h2 | h2
        · exact absurd h2 h
        · exact absurd h2 hproto

/-- Witness for C5 (amended): a bogus field is rejected locally with the
validation message; a valid field is accepted; the prototype-inherited
name `toString` slips past the validation and yields a write whose range
embeds the stringified inherited function. -/
theorem c5_field_validation_witness :
    updateJournalEntry (some "token") 5 "bogus" (some "x")
        = .error "Invalid field provided for update: bogus" ∧
    (updateJournalEntry (some "token") 5 "tags" (some "x")).toOption.isSome = true ∧
    (∃ w, updateJournalEntry (some "token") 5 "toString" (some "x") = .ok w ∧
      w.range = "Journal!" ++ jsDisplay (.protoRef "toString") ++ toString 5) := by
  refine ⟨?_, ?_, ?_⟩
  · exact (c5_field_validation "token" 5 "bogus" (some "x")).2.1 (by decide) (by decide)
  · exact (c5_field_validation "token" 5 "tags" (some "x")).1.mpr (Or.inl (by decide))
  · exact (c5_field_validation "token" 5 "toString" (some "x")).2.2 (by decide)

/-- C10: a `priority` update does not write the argument verbatim: the
written value is `formatPriorityForSheet value`, which maps `null` and any
case variant of `"none"` to the empty string and capitalizes anything else
(first character upper-cased, remainder lower-cased, e.g. `high ↦ High`);
every other valid field writes the argument verbatim. -/
theorem c10_priority_formatting (tok : String) (row : Nat) (value : Option String) :
    (updateJournalEntry (some tok) row "priority" value
        = .ok { range := "Journal!H" ++ toString row,
                value := some (formatPriorityForSheet value) }) ∧
    (value = none → formatPriorityForSheet value = "") ∧
    (∀ s, value = some s → strToLower s = "none" →
        formatPriorityForSheet value = "") ∧
    (∀ s, value = some s → strToLower s ≠ "none" →
        formatPriorityForSheet value = strToUpper (s.take 1) ++ strToLower (s.drop 1)) ∧
    formatPriorityForSheet (some "high") = "High" ∧
    (∀ field v2 w, field ≠ "priority" →
        updateJournalEntry (some tok) row field v2 = .ok w → w.value = v2) := by
  refine ⟨rfl, ?_, ?_, ?_, by decide, ?_⟩
  · rintro rfl
    rfl
  · rintro s rfl hnone
    by_cases hs : s = ""
    · subst hs
      rfl
    · simp [formatPriorityForSheet, hs, hnone]
  · rintro s rfl hnone
    by_cases hs : s = ""
    · subst hs
      decide
    · simp [formatPriorityForSheet, hs, hnone]
  · intro field v2 w hne h
    unfold updateJournalEntry at h
    by_cases ht : jsTruthy (columnMapGet field) = true
    · rw [if_pos ht] at h
      simp only [if_neg hne] at h
      cases h
      rfl
    · rw [if_neg ht] at h
      cases h

/-- Witness for C10: updating priority on row 5 with `"high"` writes
`High` to `Journal!H5`, and updating `tags` writes the value verbatim. -/
theorem c10_priority_formatting_witness :
    updateJournalEntry (some "token") 5 "priority" (some "high")
        = .ok { range := "Journal!H5", value := some "High" } ∧
    formatPriorityForSheet (some "NONE") = "" := by
  constructor
  · have h := (c10_priority_formatting "token" 5 (some "high")).1
    have he : ("Journal!H" ++ toString (5 : Nat) : String) = "Journal!H5" := by decide
    have hv : formatPriorityForSheet (some "high") = "High" := by decide
    rw [he, hv] at h
    exact h
  · exact (c10_priority_formatting "token" 5 (some "NONE")).2.2.1 "NONE" rfl (by decide)

/-- Every in-range output index of the downsampler reads an in-range input
sample: `i < ceil(16000*L/rate)` implies `i*rate/16000 < L`. -/
lemma downsample_offset_lt {L rate i : Nat}
    (h : i < (16000 * L + rate - 1) / rate) : i * rate / 16000 < L := by
  rcases Nat.eq_zero_or_pos rate with hr | hr
  · subst hr
    simp at h
  · have h1 : (i + 1) * rate ≤ 16000 * L + rate - 1 :=
      (Nat.le_div_iff_mul_le hr).mp h
    have h2 : i * rate + rate ≤ 16000 * L + rate - 1 := by
      have : (i + 1) * rate = i * rate + rate := by ring
      omega
    have h3 : i * rate < L * 16000 := by
      have := Nat.mul_comm L 16000
      omega
    exact (Nat.div_lt_iff_lt_mul (by norm_num)).mpr h3

/-- C9: downsampling computes `ratio = rate/16000` and returns a frame of
length `ceil(len/ratio)` (equivalently `ceil(16000*len/rate)`, stated in
exact integer arithmetic) whose `i`-th sample is the input sample at
`floor(i*ratio) = i*rate/16000`; it is the identity at 16000 Hz, and a
960-sample 48 kHz frame yields 320 samples with `output[i] = input[3*i]`. -/
theorem c9_downsample_correct (inputData : List Int) (sampleRate : Nat) :
    ((downsampleTo16k inputData sampleRate).length
        = (16000 * inputData.length + sampleRate - 1) / sampleRate) ∧
    (∀ i, i < (downsampleTo16k inputData sampleRate).length →
        (downsampleTo16k inputData sampleRate).get? i
          = inputData.get? (i * sampleRate / 16000)) ∧
    (sampleRate = 16000 → downsampleTo16k inputData sampleRate = inputData) ∧
    (inputData.length = 960 →
        (downsampleTo16k inputData 48000).length = 320 ∧
        ∀ i, i < 320 →
          (downsampleTo16k inputData 48000).get? i = inputData.get? (3 * i)) := by
  have hid : downsampleTo16k inputData 16000 = inputData := by
    simp [downsampleTo16k]
  have hlen : ∀ rate : Nat, (downsampleTo16k inputData rate).length
      = (16000 * inputData.length + rate - 1) / rate := by
    intro rate
    by_cases h16 : rate = 16000
    · subst h16
      rw [hid]
      omega
    · simp [downsampleTo16k, h16]
  have hget : ∀ rate i, i < (downsampleTo16k inputData rate).length →
      (downsampleTo16k inputData rate).get? i
        = inputData.get? (i * rate / 16000) := by
    intro rate i hi
    by_cases h16 : rate = 16000
    · subst h16
      rw [hid]
      have hdiv : i * 16000 / 16000 = i := by omega
      rw [hdiv]
    · have hi2 : i < (16000 * inputData.length + rate - 1) / rate := by
        rw [← hlen rate]
        exact hi
      have hb : i * rate / 16000 < inputData.length := downsample_offset_lt hi2
      simp only [downsampleTo16k, if_neg h16]
      rw [List.get?_map, List.get?_range (by simpa [downsampleTo16k, h16] using hi)]
      rw [List.get?_eq_get hb]
      exact congrArg some (dif_pos hb)
  refine ⟨hlen sampleRate, hget sampleRate, ?_, ?_⟩
  · intro h16
    subst h16
    exact hid
  · intro h960
    have hl : (downsampleTo16k inputData 48000).length = 320 := by
      rw [hlen 48000, h960]
    refine ⟨hl, fun i hi => ?_⟩
    have := hget 48000 i (by rw [hl]; exact hi)
    have h3 : i * 48000 / 16000 = 3 * i := by omega
    rwa [h3] at this

/-- A 960-sample ramp frame. -/
def frame960 : List Int :=
  (List.range 960).map Int.ofNat

/-- Witness for C9: the 48 kHz ramp frame downsamples to 320 samples with
`output[5] = input[15]`, and a 16 kHz frame passes through unchanged. -/
theorem c9_downsample_correct_witness :
    (downsampleTo16k frame960 48000).length = 320 ∧
    (downsampleTo16k frame960 48000).get? 5 = frame960.get? 15 ∧
    downsampleTo16k frame960 16000 = frame960 := by
  obtain ⟨hl, hg⟩ := (c9_downsample_correct frame960 48000).2.2.2
    (by rw [frame960, List.length_map, List.length_range])
  refine ⟨hl, ?_, (c9_downsample_correct frame960 16000).2.2.1 rfl⟩
  have := hg 5 (by norm_num)
  simpa using this

/-- The produced start-time list has one start time per enqueued chunk. -/
lemma scheduleStarts_length (nextTime : ℚ) (chunks : List (ℚ × ℚ)) :
    (scheduleStarts nextTime chunks).length = chunks.length := by
  induction chunks generalizing nextTime with
  | nil => rfl
  | cons c rest ih => simp [scheduleStarts, scheduleStep, ih]

/-- C6: for any sequence of chunks `(clock, dur)` enqueued with the
cursor rule `startAt = max(nextPlaybackTime, clock)` /
`nextPlaybackTime = startAt + dur`, consecutive start times satisfy
`start[i] + dur[i] ≤ start[i+1] ≤ max(clock[i+1], start[i] + dur[i])`:
no overlap and no unnecessary gap. -/
theorem c6_gapless_schedule (chunks : List (ℚ × ℚ)) (nextTime : ℚ) (i : ℕ)
    (ci cj : ℚ × ℚ) (hci : chunks.get? i = some ci)
    (hcj : chunks.get? (i + 1) = some cj) :
    ∃ si sj, (scheduleStarts nextTime chunks).get? i = some si ∧
      (scheduleStarts nextTime chunks).get? (i + 1) = some sj ∧
      si + ci.2 ≤ sj ∧ sj ≤ max cj.1 (si + ci.2) := by
  induction chunks generalizing nextTime i with
  | nil => simp at hci
  | cons c rest ih =>
    cases i with
    | zero =>
      cases rest with
      | nil => simp at hcj
      | cons r rest2 =>
        have hc : c = ci := by simpa using hci
        have hr : r = cj := by simpa using hcj
        subst hc
        subst hr
        refine ⟨max nextTime c.1, max (max nextTime c.1 + c.2) r.1, rfl, rfl,
          le_max_left _ _, le_of_eq (max_comm _ _)⟩
    | succ k =>
      have hci2 : rest.get? k = some ci := by simpa using hci
      have hcj2 : rest.get? (k + 1) = some cj := by simpa using hcj
      obtain ⟨si, sj, h1, h2, h3, h4⟩ :=
        ih (max nextTime c.1 + c.2) k hci2 hcj2
      exact ⟨si, sj, by simpa [scheduleStarts, scheduleStep] using h1,
        by simpa [scheduleStarts, scheduleStep] using h2, h3, h4⟩

/-- Witness for C6 on a concrete burst: three chunks of durations 2, 3, 1
arriving at clock times 0, 1, 10. -/
theorem c6_gapless_schedule_witness :
    ∃ si sj, (scheduleStarts 0 [(0, 2), (1, 3), (10, 1)]).get? 1 = some si ∧
      (scheduleStarts 0 [(0, 2), (1, 3), (10, 1)]).get? 2 = some sj ∧
      si + ((1 : ℚ), (3 : ℚ)).2 ≤ sj ∧
      sj ≤ max ((10 : ℚ), (1 : ℚ)).1 (si + ((1 : ℚ), (3 : ℚ)).2) :=
  c6_gapless_schedule [(0, 2), (1, 3), (10, 1)] 0 1 (1, 3) (10, 1) rfl rfl

/-- Inductive invariant of the lifecycle machine on safe traces: while
`CONNECTING` the busy flag is up; while `LISTENING` the busy flag is up or
the session handle is stored; while a start coroutine awaits the
microphone the busy flag is up. -/
def GuardInv (s : LiveState) : Prop :=
  (s.sessionState = .CONNECTING → s.isBusy = true) ∧
  (s.sessionState = .LISTENING → s.isBusy = true ∨ s.sessionOpen = true) ∧
  (s.phase = .awaitingMic → s.isBusy = true)

/-- The guard invariant holds in every safely reachable state. -/
lemma safeReach_guardInv {s : LiveState} (hs : SafeReach s) : GuardInv s := by
  induction hs with
  | init => exact ⟨by simp [initState], by simp [initState], by simp [initState]⟩
  | next s e hs hsafe ih =>
    obtain ⟨ih1, ih2, ih3⟩ := ih
    cases e with
    | startRequest k =>
      simp only [step, stepStart]
      by_cases hg : s.isBusy || s.sessionOpen
      · rw [if_pos hg]
        exact ⟨ih1, ih2, ih3⟩
      · rw [if_neg hg]
        by_cases hk : k

        · simp [GuardInv, hk]
        · simp [GuardInv, hk, startCatch, stopSession]
    | micResult r =>
      simp only [step, stepMic]
      by_cases hp : s.phase = .awaitingMic
      · rw [if_pos hp]
        cases r with
        | granted => simp [GuardInv, ih3 hp]
        | denied name message => simp [GuardInv, startCatch, stopSession]
      · rw [if_neg hp]
        exact ⟨ih1, ih2, ih3⟩
    | connectResult r =>
      simp only [step, stepConnect]
      by_cases hp : s.phase = .awaitingConnect
      · rw [if_pos hp]
        cases r with
        | opened =>
          by_cases hmc : s.micOn && s.ctxOpen
          · simp [GuardInv, hmc]
          · simp only [hmc, if_neg, Bool.false_eq_true, if_false]
            exact ⟨fun h => ih1 h, fun _ => Or.inr rfl, fun h => by simp at h⟩

        | failed message => simp [GuardInv, startCatch, stopSession]
      · rw [if_neg hp]
        exact ⟨ih1, ih2, ih3⟩
    | stopCall =>
      have hp : s.phase ≠ .awaitingMic := hsafe rfl
      exact ⟨by simp [step, stopSession], by simp [step, stopSession],
        fun h => absurd h hp⟩
    | serverError =>
      simp only [step, stepServerError]
      by_cases hp : s.phase = .awaitingConnect ∨ s.phase = .running
      · have hb : (s.phase = .awaitingConnect || s.phase = .running) = true := by
          rcases hp with h | h <;> simp [h]
        rw [if_pos (by simpa using hb)]
        refine ⟨by simp [stopSession], by simp [stopSession], fun h => ?_⟩
        have h3 : s.phase = .awaitingMic := h
        have h4 : s.phase ≠ .awaitingMic := by
          rcases hp with h2 | h2 <;> simp [h2]
        exact absurd h3 h4
      · have hb : ¬(s.phase = .awaitingConnect || s.phase = .running) = true := by
          simpa using hp
        rw [if_neg (by simpa using hb)]
        exact ⟨ih1, ih2, ih3⟩
    | serverClose =>
      simp only [step, stepServerClose]
      by_cases hp : s.phase = .awaitingConnect ∨ s.phase = .running
      · have hb : (s.phase = .awaitingConnect || s.phase = .running) = true := by
          rcases hp with h | h <;> simp [h]
        rw [if_pos (by simpa using hb)]
        refine ⟨by simp [stopSession], by simp [stopSession], fun h => ?_⟩
        have h3 : s.phase = .awaitingMic := h
        have h4 : s.phase ≠ .awaitingMic := by
          rcases hp with h2 | h2 <;> simp [h2]
        exact absurd h3 h4
      · have hb : ¬(s.phase = .awaitingConnect || s.phase = .running) = true := by
          simpa using hp
        rw [if_neg (by simpa using hb)]
        exact ⟨ih1, ih2, ih3⟩
    | toolCallMsg calls => exact ⟨ih1, ih2, ih3⟩
    | audioChunk clock dur =>
      simp only [step, stepAudioChunk]
      by_cases hc : s.ctxOpen
      · rw [if_pos hc]
        exact ⟨ih1, ih2, ih3⟩
      · rw [if_neg hc]
        exact ⟨ih1, ih2, ih3⟩
    | interruptSignal => exact ⟨ih1, ih2, ih3⟩
    | sourceEnded id => exact ⟨ih1, ih2, ih3⟩

/-- C1 (amended): in every state that is safely reachable (no `stop()`
during a pending `start()`'s microphone await), a `start()` call while
`sessionState` is `CONNECTING` or `LISTENING` hits the
`isBusyRef.current || sessionRef.current` guard and is a no-op: the state,
including the microphone-acquisition and transport-connection counters and
the transcript, is unchanged. -/
theorem c1_start_noop {s : LiveState} (hs : SafeReach s) (k : Bool)
    (hstate : s.sessionState = .CONNECTING ∨ s.sessionState = .LISTENING) :
    step s (.startRequest k) = s ∧
    (step s (.startRequest k)).micAcquisitions = s.micAcquisitions ∧
    (step s (.startRequest k)).transportsOpened = s.transportsOpened ∧
    (step s (.startRequest k)).transcript = s.transcript := by
  obtain ⟨inv1, inv2, inv3⟩ := safeReach_guardInv hs
  have hguard : (s.isBusy || s.sessionOpen) = true := by
    rcases hstate with h | h
    · simp [inv1 h]
    · rcases inv2 h with h2 | h2 <;> simp [h2]
  have hnoop : step s (.startRequest k) = s := by
    simp only [step, stepStart, hguard]
    rfl
  exact ⟨hnoop, by rw [hnoop], by rw [hnoop], by rw [hnoop]⟩

/-- A safely reachable state in mid-connect: `start()` succeeded through
the microphone grant, so `sessionState = CONNECTING`. -/
def connectingState : LiveState :=
  run initState [.startRequest true, .micResult .granted]

/-- Witness for C1: the concrete `CONNECTING` state reached by
`start(); mic granted` ignores a repeated `start()`. -/
theorem c1_start_noop_witness :
    step connectingState (.startRequest true) = connectingState ∧
    connectingState.sessionState = .CONNECTING := by
  have hreach : SafeReach connectingState := by
    refine SafeReach.next _ (.micResult .granted)
      (SafeReach.next _ (.startRequest true) SafeReach.init (by intro h; cases h))
      (by intro h; cases h)
  exact ⟨(c1_start_noop hreach true (Or.inl rfl)).1, rfl⟩

/-- C1 counterexample: the claim fails without the safety restriction.
Trace: `start()` begins and suspends in `getUserMedia`; `stop()` is called
(legal: `sessionState` is still `IDLE`), which clears the busy flag; the
microphone grant then resumes the suspended coroutine, which stores the
stream, sets `CONNECTING` and connects the transport.  In this
`CONNECTING` state the guard is down, so a further `start()` is *not* a
no-op: it proceeds, and after its own microphone grant the session has
acquired the microphone twice and opened two transports. -/
theorem c1_start_reentry_counterexample :
    (run initState [.startRequest true, .stopCall, .micResult .granted]).sessionState
        = .CONNECTING ∧
    step (run initState [.startRequest true, .stopCall, .micResult .granted])
        (.startRequest true)
      ≠ run initState [.startRequest true, .stopCall, .micResult .granted] ∧
    (run initState [.startRequest true, .stopCall, .micResult .granted,
        .startRequest true, .micResult .granted]).micAcquisitions = 2 ∧
    (run initState [.startRequest true, .stopCall, .micResult .granted,
        .startRequest true, .micResult .granted]).transportsOpened = 2 := by
  refine ⟨rfl, ?_, rfl, rfl⟩
  intro h
  exact absurd (congrArg LiveState.isBusy h) (by decide)

/-- C3: when the transport fires `onerror` on a live session, the handler
sets `ERROR` and then calls `stopSession()`, whose final
`setSessionState('IDLE')` overwrites it — so the state that actually rests
is `IDLE`, not `ERROR`, with only `errorMessage` left behind.  (The UI in
`LiveChatView` gates its error banner and its `Error - Tap to Retry`
button on `sessionState === 'ERROR'`, which this makes unreachable as a
resting state.) -/
theorem c3_onerror_rests_idle :
    (run initState [.startRequest true, .micResult .granted,
        .connectResult .opened, .serverError]).sessionState = .IDLE ∧
    (run initState [.startRequest true, .micResult .granted,
        .connectResult .opened, .serverError]).errorMessage
        = some connectFailedMsg ∧
    (run initState [.startRequest true, .micResult .granted,
        .connectResult .opened, .serverError]).sessionState ≠ .ERROR := by
  exact ⟨rfl, rfl, by intro h; cases h⟩

/-- Once no start coroutine is awaiting the microphone, no event other
than a new `startRequest` can ever invoke `ai.live.connect` again: the
transport counter stays put. -/
lemma no_transport_without_start (s : LiveState) (h : s.phase ≠ .awaitingMic)
    (es : List Event) (hes : ∀ e ∈ es, ∀ k, e ≠ .startRequest k) :
    (run s es).transportsOpened = s.transportsOpened := by
  induction es generalizing s with
  | nil => rfl
  | cons e rest ih =>
    have hstep : (step s e).transportsOpened = s.transportsOpened ∧
        (step s e).phase ≠ .awaitingMic := by
      cases e with
      | startRequest k => exact absurd rfl (hes _ (by simp) k)
      | micResult r =>
        simp only [step, stepMic, if_neg h]
        exact ⟨by simp, h⟩
      | connectResult r =>
        simp only [step, stepConnect]
        by_cases hp : s.phase = .awaitingConnect
        · rw [if_pos hp]
          cases r with
          | opened =>
            by_cases hmc : s.micOn && s.ctxOpen
            · simp [hmc]
            · simp only [hmc, Bool.false_eq_true, if_false]
              exact ⟨by simp, by simp⟩
          | failed message => simp [startCatch, stopSession]
        · rw [if_neg hp]
          exact ⟨by simp, h⟩
      | stopCall => exact ⟨rfl, h⟩
      | serverError =>
        simp only [step, stepServerError]
        by_cases hp : (s.phase = .awaitingConnect || s.phase = .running) = true
        · rw [if_pos (by simpa using hp)]
          exact ⟨rfl, h⟩
        · rw [if_neg (by simpa using hp)]
          exact ⟨rfl, h⟩
      | serverClose =>
        simp only [step, stepServerClose]
        by_cases hp : (s.phase = .awaitingConnect || s.phase = .running) = true
        · rw [if_pos (by simpa using hp)]
          exact ⟨rfl, h⟩
        · rw [if_neg (by simpa using hp)]
          exact ⟨rfl, h⟩
      | toolCallMsg calls => exact ⟨rfl, h⟩
      | audioChunk clock dur =>
        simp only [step, stepAudioChunk]
        by_cases hc : s.ctxOpen
        · rw [if_pos hc]
          exact ⟨by simp, h⟩
        · rw [if_neg hc]
          exact ⟨by simp, h⟩
      | interruptSignal => exact ⟨rfl, h⟩
      | sourceEnded id => exact ⟨rfl, h⟩
    have hrest := ih (step s e) hstep.2 (fun e2 he2 k => hes e2 (by simp [he2]) k)
    calc (run s (e :: rest)).transportsOpened
        = (run (step s e) rest).transportsOpened := rfl
      _ = (step s e).transportsOpened := hrest
      _ = s.transportsOpened := hstep.1

/-- C4: a `getUserMedia` rejection named `NotAllowedError` (or
`PermissionDeniedError`) during `start()` aborts the session start: the
surfaced message is the microphone-specific one — distinct from both
generic failure messages in the code — no transport connection was opened
at that point (the `ai.live.connect` call site comes only after a
successful `getUserMedia`), and no later event of that session can open
one without a fresh `start()`. -/
theorem c4_mic_denied_aborts (s : LiveState) (hphase : s.phase = .awaitingMic)
    (name message : String)
    (hname : name = "NotAllowedError" ∨ name = "PermissionDeniedError") :
    (step s (.micResult (.denied name message))).errorMessage = some micDeniedMsg ∧
    micDeniedMsg ≠ genericErrorMsg ∧
    micDeniedMsg ≠ connectFailedMsg ∧
    (step s (.micResult (.denied name message))).transportsOpened
        = s.transportsOpened ∧
    (step s (.micResult (.denied name message))).phase = .noStart ∧
    (∀ es : List Event, (∀ e ∈ es, ∀ k, e ≠ .startRequest k) →
      (run (step s (.micResult (.denied name message))) es).transportsOpened
        = s.transportsOpened) := by
  have hmsg : (if name = "NotAllowedError" || name = "PermissionDeniedError"
      then micDeniedMsg else message) = micDeniedMsg := by
    rcases hname with h | h <;> simp [h]
  have hstep : step s (.micResult (.denied name message))
      = startCatch micDeniedMsg s := by
    simp only [step, stepMic, if_pos hphase, hmsg]
  refine ⟨by rw [hstep]; rfl, by decide, by decide, by rw [hstep]; rfl,
    by rw [hstep]; rfl, fun es hes => ?_⟩
  have := no_transport_without_start (step s (.micResult (.denied name message)))
    (by rw [hstep]; simp [startCatch, stopSession]) es hes
  rw [this, hstep]
  rfl

/-- Witness for C4: denying the microphone right after `start()` surfaces
the specific message and leaves the transport counter at zero, also after
further non-start events. -/
theorem c4_mic_denied_aborts_witness :
    (step (run initState [.startRequest true])
        (.micResult (.denied "NotAllowedError" "boo"))).errorMessage
      = some micDeniedMsg ∧
    (run (step (run initState [.startRequest true])
        (.micResult (.denied "NotAllowedError" "boo")))
        [.stopCall, .serverClose]).transportsOpened = 0 := by
  have h := c4_mic_denied_aborts (run initState [.startRequest true]) rfl
    "NotAllowedError" "boo" (Or.inl rfl)
  refine ⟨h.1, h.2.2.2.2.2 [.stopCall, .serverClose] ?_⟩
  intro e he k hc
  simp only [List.mem_cons, List.mem_singleton, List.not_mem_nil, or_false] at he
  rcases he with rfl | rfl <;> cases hc

/-- C7: on an interruption signal every pending playback source is
stopped, `pendingAudioSources` is cleared and `nextPlaybackTime` is reset
to 0, so a chunk enqueued next (while the audio context is open) is
scheduled at `max 0 clock ≥ clock`, the current device clock, not at the
stale cursor. -/
theorem c7_interrupt_flush (s : LiveState) :
    (step s .interruptSignal).pending = [] ∧
    (step s .interruptSignal).nextStartTime = 0 ∧
    (∀ id, id ∈ s.pending → id ∈ (step s .interruptSignal).stoppedSources) ∧
    (∀ clock dur : ℚ, s.ctxOpen = true →
      (step (step s .interruptSignal) (.audioChunk clock dur)).scheduledStarts
          = (step s .interruptSignal).scheduledStarts ++ [max 0 clock] ∧
      clock ≤ max 0 clock) := by
  refine ⟨rfl, rfl, fun id hid => ?_, fun clock dur hctx => ⟨?_, le_max_right 0 clock⟩⟩
  · exact List.mem_append_right _ hid
  · simp only [step, stepAudioChunk, stepInterrupt]
    rw [if_pos hctx]
    rfl

/-- Witness for C7: after an interruption in a session with one pending
source, the set is empty, the source was stopped, and a chunk arriving at
clock time 7 starts at 7. -/
theorem c7_interrupt_flush_witness :
    (step (run initState [.startRequest true, .micResult .granted,
        .connectResult .opened, .audioChunk 1 2]) .interruptSignal).pending = [] ∧
    0 ∈ (step (run initState [.startRequest true, .micResult .granted,
        .connectResult .opened, .audioChunk 1 2]) .interruptSignal).stoppedSources ∧
    (step (step (run initState [.startRequest true, .micResult .granted,
          .connectResult .opened, .audioChunk 1 2]) .interruptSignal)
        (.audioChunk 7 2)).scheduledStarts
      = (step (run initState [.startRequest true, .micResult .granted,
          .connectResult .opened, .audioChunk 1 2])
          .interruptSignal).scheduledStarts ++ [max 0 7] := by
  have h := c7_interrupt_flush (run initState [.startRequest true,
    .micResult .granted, .connectResult .opened, .audioChunk 1 2])
  refine ⟨h.1, h.2.2.1 0 ?_, (h.2.2.2 7 2 rfl).1⟩
  show 0 ∈ [0]
  simp

/-- C8: a `toolCall` message with any list of function calls (including
unrecognized names) leaves `sessionState`, the session handle and the
start coroutine untouched, and sends exactly one response per request, in
order, carrying that request's `id` and `name`; whenever the backing
sheets call throws, the response for a recognized tool is the error
payload containing the thrown message. -/
theorem c8_toolcall_responses (s : LiveState) (calls : List ToolCallReq) :
    (step s (.toolCallMsg calls)).sessionState = s.sessionState ∧
    (step s (.toolCallMsg calls)).sessionOpen = s.sessionOpen ∧
    (step s (.toolCallMsg calls)).phase = s.phase ∧
    (step s (.toolCallMsg calls)).responsesSent
        = s.responsesSent ++ calls.map dispatchResponse ∧
    (∀ fc ∈ calls, (dispatchResponse fc).id = fc.id ∧
        (dispatchResponse fc).name = fc.name) ∧
    (∀ fc ∈ calls, ∀ m, fc.sheets = .error m →
        (fc.name = "findEntries" ∨ fc.name = "updateJournalEntry") →
        (dispatchResponse fc).payload = .err m) := by
  refine ⟨rfl, rfl, rfl, rfl, fun fc _ => ?_, fun fc _ m hm hname => ?_⟩
  · unfold dispatchResponse
    by_cases h1 : fc.name = "findEntries"
    · rw [if_pos h1]
      cases fc.sheets <;> exact ⟨rfl, rfl⟩
    · rw [if_neg h1]
      by_cases h2 : fc.name = "updateJournalEntry"
      · rw [if_pos h2]
        cases fc.sheets <;> exact ⟨rfl, rfl⟩
      · rw [if_neg h2]
        exact ⟨rfl, rfl⟩
  · rcases hname with h | h <;> simp [dispatchResponse, h, hm]

/-- Witness for C8: a two-call message (one failing `findEntries`, one
call with an unknown name) yields exactly two responses with matching ids;
the failing one carries the thrown message. -/
theorem c8_toolcall_responses_witness :
    (step initState (.toolCallMsg
        [{ id := "call1", name := "findEntries", argsQuery := "coffee",
           argsField := "", argsValue := "", argsRow := 0,
           sheets := .error "Not authenticated" },
         { id := "call2", name := "mystery", argsQuery := "", argsField := "",
           argsValue := "", argsRow := 0, sheets := .ok "ignored" }])).responsesSent
      = [{ id := "call1", name := "findEntries",
           payload := .err "Not authenticated" },
         { id := "call2", name := "mystery", payload := .undefinedProp }] ∧
    (step initState (.toolCallMsg
        [{ id := "call1", name := "findEntries", argsQuery := "coffee",
           argsField := "", argsValue := "", argsRow := 0,
           sheets := .error "Not authenticated" },
         { id := "call2", name := "mystery", argsQuery := "", argsField := "",
           argsValue := "", argsRow := 0, sheets := .ok "ignored" }])).sessionState
      = initState.sessionState := by
  have h := c8_toolcall_responses initState
    [{ id := "call1", name := "findEntries", argsQuery := "coffee",
       argsField := "", argsValue := "", argsRow := 0,
       sheets := .error "Not authenticated" },
     { id := "call2", name := "mystery", argsQuery := "", argsField := "",
       argsValue := "", argsRow := 0, sheets := .ok "ignored" }]
  refine ⟨?_, h.1⟩
  rw [h.2.2.2.1]
  rfl

end JournalAI
